import Mathlib

/-!
Verification of the route manager (`src/satellite/routes/manager.py`).

The module manages Route aggregates, each owning an ordered list of
RuleEntry ("filter") records.  We embed its data model and operations as
executable Lean definitions and prove the specified properties about them.

Modelling notes, fixed throughout this file:

* Python dicts carrying partial records become structures of `Option`
  fields (`none` = key absent).  For the `rule_entries_list` key of an
  update payload the three dict states absent / present-`None` /
  present-list are all observable, so that field uses `DictVal`.
* The persistent store is a `Store` holding the committed routes plus a
  counter from which the storage layer mints fresh identifiers at commit
  time (SQLAlchemy populates missing primary keys at flush).  Each
  operation maps a store to a result together with the store as persisted
  when the operation returns: exceptions raised before a commit leave the
  store unchanged.
* `satellite.db.update_model`, the session, and the two builders
  (`CompositeExpression.build`, `build_pipeline`) are repository or
  third-party code outside `src/`; they are modelled from the spec at
  their interface boundary (see the individual doc comments).
* A storage failure at a commit/add/delete step is modelled by explicit
  fault-injection parameters (`cf : Bool`, `SwapFault`), since the spec
  requires rollback behaviour under "any persistence failure".
-/

namespace Satellite

/-- A dict value for a key whose absent / null / present states are all
observable (`route_data['rule_entries_list']`). -/
inductive DictVal (α : Type) where
  | absent : DictVal α
  | null : DictVal α
  | val : α → DictVal α
deriving Repr, DecidableEq

/-- A persisted rule entry (model `RuleEntry` of `satellite.db.models.route`,
which is not under `src/`).  Modelled from the spec §3: identity `id`
(absent until the store assigns one at commit), optional
`expression_snapshot`, a `has_operations` flag, and opaque further
attributes collapsed into `payload`. -/
structure RuleEntry where
  id : Option String
  expression_snapshot : Option String
  has_operations : Bool
  payload : String
deriving Repr, DecidableEq

instance : Inhabited RuleEntry := ⟨⟨none, none, false, ""⟩⟩

/-- An incoming partial rule-entry record (`filter_data` dict).  Each
field is `some v` when the key is present.  For `id` the code only ever
reads `filter_data.get('id')`, which collapses an absent key and an
explicit null, so a single `Option` is faithful. -/
structure RuleEntryPatch where
  id : Option String
  expression_snapshot : Option (Option String)
  has_operations : Option Bool
  payload : Option String
deriving Repr, DecidableEq

/-- A persisted route (model `Route` of `satellite.db.models.route`, not
under `src/`).  Modelled from the spec §3.  `outbound` is the
directionality flag: the value returned by calling the model's
`is_outbound()` method — `get_all_by_type` (src line 30) calls
`route.is_outbound()`, establishing that `is_outbound` is a method of the
model, not a plain column. -/
structure Route where
  id : Option String
  outbound : Bool
  host_endpoint : String
  payload : String
  rule_entries_list : List RuleEntry
deriving Repr, DecidableEq

/-- Calling the model's `is_outbound()` method (as `get_all_by_type`
does) returns the directionality flag. -/
def Route.is_outbound (r : Route) : Bool := r.outbound

/-- The Python truthiness of the bare attribute access `route.is_outbound`
(as written in `check_route`, src line 144).  Since `is_outbound` is a
method (see `Route`), the attribute is a bound-method object, and a
bound method is always truthy in Python — regardless of the flag. -/
def Route.is_outbound_attr (_ : Route) : Bool := true

/-- An incoming route payload (`route_data` dict). -/
structure RouteData where
  id : Option String
  outbound : Option Bool
  host_endpoint : Option String
  payload : Option String
  rule_entries_list : DictVal (List RuleEntryPatch)
deriving Repr, DecidableEq

/-- Error taxonomy of the manager.  `pyTypeError` stands for the
`TypeError` Python raises when iterating `None`; `storageFailure` stands
for an arbitrary persistence-layer exception. -/
inductive ManagerError where
  | entityNotFound : String → ManagerError
  | invalidRouteConfiguration : String → ManagerError
  | storageFailure : String → ManagerError
  | pyTypeError : ManagerError
deriving Repr, DecidableEq

/-- Modelled from the spec §6: the generic field-merge utility
`satellite.db.update_model` applied to a rule entry with the `id` field
excluded (`update_model(filter, filter_data, ['id'])`, src line 85):
every field supplied by the record is adopted, the identity is kept. -/
def updateEntryFields (e : RuleEntry) (p : RuleEntryPatch) : RuleEntry :=
  { e with
    expression_snapshot := p.expression_snapshot.getD e.expression_snapshot
    has_operations := p.has_operations.getD e.has_operations
    payload := p.payload.getD e.payload }

/-- `RuleEntry(**filter_data)` (src lines 42 and 88): a brand-new entry
built from exactly the supplied fields; unsupplied fields take the model
defaults, and an unsupplied `id` stays unassigned until commit. -/
def ruleEntryFromData (p : RuleEntryPatch) : RuleEntry :=
  { id := p.id
    expression_snapshot := p.expression_snapshot.getD none
    has_operations := p.has_operations.getD false
    payload := p.payload.getD "" }

/-- Modelled from the spec §6: `update_model(route, route_data)` (src
line 69, no excluded fields) merges the scalar route attributes supplied
by the payload onto the existing route.  The owned rule-entry collection
is not merged here: per spec §4.3 it is owned by the reconciler, which
runs only when the payload names the rule-entries key. -/
def updateRouteModel (r : Route) (d : RouteData) : Route :=
  { r with
    id := match d.id with | some v => some v | none => r.id
    outbound := d.outbound.getD r.outbound
    host_endpoint := d.host_endpoint.getD r.host_endpoint
    payload := d.payload.getD r.payload }

/-! ## The rule reconciler (src lines 73–95)

The loop body mutates matched entries **in place** (`update_model` on the
live ORM object) and appends either the live object or a freshly built
one to `target_filters`.  We embed this with explicit state threading:
the current collection is a list whose positions are stable object
identities; targets are references (position into the collection, or a
fresh value); the final collection materialises every reference against
the post-loop state, which reproduces Python's aliasing. -/

/-- Position of the entry with identity `i` in the current collection
(the lookup `current_filters.get(filter_id)` against the dict built on
src line 75; persisted identities are unique, so first match is the
dict's match). -/
def findIdxById : List RuleEntry → String → Option Nat
  | [], _ => none
  | e :: es, i =>
    if e.id = some i then some 0 else (findIdxById es i).map (· + 1)

/-- In-place mutation of the entry at position `j` by the incoming
record (`update_model(filter, filter_data, ['id'])`). -/
def mutateAt : List RuleEntry → Nat → RuleEntryPatch → List RuleEntry
  | [], _, _ => []
  | e :: es, 0, p => updateEntryFields e p :: es
  | e :: es, j + 1, p => e :: mutateAt es j p

/-- A target-list element: a reference to a live entry of the current
collection, or a freshly constructed entry. -/
inductive TargetRef where
  | existing : Nat → TargetRef
  | fresh : RuleEntry → TargetRef
deriving Repr, DecidableEq

/-- One pass of the reconciliation loop: threads the (mutated) current
collection and emits one target reference per incoming record, in
order. -/
def reconcileAux (c : List RuleEntry) :
    List RuleEntryPatch → List RuleEntry × List TargetRef
  | [] => (c, [])
  | p :: ps =>
    match p.id with
    | some i =>
      match findIdxById c i with
      | some j =>
        let r := reconcileAux (mutateAt c j p) ps
        (r.1, TargetRef.existing j :: r.2)
      | none =>
        let r := reconcileAux c ps
        (r.1, TargetRef.fresh (ruleEntryFromData p) :: r.2)
    | none =>
      let r := reconcileAux c ps
      (r.1, TargetRef.fresh (ruleEntryFromData p) :: r.2)

/-- Read a target reference against the final collection state. -/
def materialize (c : List RuleEntry) : TargetRef → RuleEntry
  | TargetRef.existing j => (c.get? j).getD default
  | TargetRef.fresh e => e

/-- The new owned collection produced by the reconciliation loop:
`route.rule_entries_list = target_filters` (src line 95), with matched
entries showing every in-place mutation applied during the loop. -/
def reconcile (cur : List RuleEntry) (ps : List RuleEntryPatch) :
    List RuleEntry :=
  (reconcileAux cur ps).2.map (materialize (reconcileAux cur ps).1)

/-! ## Validation cascade (src lines 122–153) -/

/-- External builder interfaces (spec §6): `re.compile`,
`CompositeExpression.build` and `build_pipeline` are outside this
module; each is modelled as a function returning `some message` exactly
when the builder fails on that input. -/
structure Builders where
  regexErr : String → Option String
  exprErr : String → Option String
  pipeErr : RuleEntry → Option String

/-- Python truthiness of the optional expression snapshot
(`if fltr.expression_snapshot:`): an absent value and an empty one are
both falsy. -/
def optTruthy : Option String → Bool
  | none => false
  | some s => !(s == "")

/-- The expression-snapshot half of `check_filter` (src lines 123–127):
`if fltr.expression_snapshot:` pass it to the expression builder and wrap
an `ExpressionError` into `InvalidRouteConfiguration`. -/
def exprCheck (B : Builders) (fltr : RuleEntry) : Except ManagerError Unit :=
  if optTruthy fltr.expression_snapshot then
    match B.exprErr (fltr.expression_snapshot.getD "") with
    | some m =>
      Except.error (ManagerError.invalidRouteConfiguration
        ("Invalid expression: " ++ m))
    | none => Except.ok ()
  else Except.ok ()

/-- The operations half of `check_filter` (src lines 129–134):
`if fltr.has_operations:` run the pipeline builder and wrap any failure
into `InvalidRouteConfiguration`. -/
def opsCheck (B : Builders) (fltr : RuleEntry) : Except ManagerError Unit :=
  if fltr.has_operations then
    match B.pipeErr fltr with
    | some m =>
      Except.error (ManagerError.invalidRouteConfiguration
        ("Invalid operations: " ++ m))
    | none => Except.ok ()
  else Except.ok ()

/-- `check_filter` (src lines 122–134): validate the expression
snapshot, then the operations pipeline, fail-fast. -/
def check_filter (B : Builders) (fltr : RuleEntry) : Except ManagerError Unit :=
  match exprCheck B fltr with
  | Except.error e => Except.error e
  | Except.ok _ => opsCheck B fltr

/-- The `for rule in route.rule_entries_list` loop of `check_route`:
validate each owned entry in collection order, first failure aborts. -/
def check_filters (B : Builders) : List RuleEntry → Except ManagerError Unit
  | [] => Except.ok ()
  | f :: fs =>
    match check_filter B f with
    | Except.error e => Except.error e
    | Except.ok _ => check_filters B fs

/-- `check_route` (src lines 143–153).  The guard in the source is
`if route.is_outbound:` — a bare attribute access on what
`get_all_by_type` (src line 30) shows to be a method, hence
`Route.is_outbound_attr`, which is always true: the host pattern is
compiled for every route, outbound or not. -/
def hostCheck (B : Builders) (route : Route) : Except ManagerError Unit :=
  if route.is_outbound_attr then
    match B.regexErr route.host_endpoint with
    | some m =>
      Except.error (ManagerError.invalidRouteConfiguration
        ("Invalid host pattern " ++ route.host_endpoint ++ ": " ++ m))
    | none => Except.ok ()
  else Except.ok ()

/-- `check_route` continued: host-pattern check, then every owned entry. -/
def check_route (B : Builders) (route : Route) : Except ManagerError Unit :=
  match hostCheck B route with
  | Except.error e => Except.error e
  | Except.ok _ => check_filters B route.rule_entries_list

/-! ## Persistent store and repository operations (src lines 22–120)

The storage session (spec §5/§6, `satellite.db.get_session`, not under
`src/`) is modelled from the spec: each operation is one unit of work
over the committed `Store`; every operation returns its result together
with the store as persisted when it returns, so a failure before the
commit point leaves the store unchanged. -/

/-- The committed state: the route table plus the counter from which the
storage layer mints fresh identifiers at flush time. -/
structure Store where
  routes : List Route
  nextId : Nat
deriving Repr, DecidableEq

/-- The identifier the storage layer mints from counter state `n`. -/
def freshId (n : Nat) : String := "gen-" ++ toString n

/-- At flush, the store assigns a fresh identifier to every rule entry
still lacking one (SQLAlchemy primary-key default). -/
def assignEntryIds (n : Nat) : List RuleEntry → List RuleEntry × Nat
  | [] => ([], n)
  | e :: es =>
    match e.id with
    | some _ =>
      let r := assignEntryIds n es
      (e :: r.1, r.2)
    | none =>
      let r := assignEntryIds (n + 1) es
      ({ e with id := some (freshId n) } :: r.1, r.2)

/-- At flush, the store assigns a fresh identifier to the route itself if
needed, then to its owned entries. -/
def assignRouteIds (n : Nat) (r : Route) : Route × Nat :=
  match r.id with
  | some _ =>
    let a := assignEntryIds n r.rule_entries_list
    ({ r with rule_entries_list := a.1 }, a.2)
  | none =>
    let a := assignEntryIds (n + 1) r.rule_entries_list
    ({ r with id := some (freshId n), rule_entries_list := a.1 }, a.2)

/-- `get_all` (src lines 22–26): the full route table.  The pre-read
`session.commit()` hack is a no-op here because the modelled store holds
no uncommitted state. -/
def get_all (s : Store) : List Route := s.routes

/-- `get_all_by_type` (src lines 29–30): in-memory filter of the full
list by the *called* `is_outbound()` method. -/
def get_all_by_type (s : Store) (is_outbound : Bool) : List Route :=
  (get_all s).filter (fun route => route.is_outbound == is_outbound)

/-- `get` (src lines 33–34): first route whose id matches, absent result
(not an error) when no match exists. -/
def get (s : Store) (route_id : String) : Option Route :=
  s.routes.find? (fun r => decide (r.id = some route_id))

/-- `route_data.get('rule_entries_list', [])` followed by the list
comprehension of src lines 41–44: an absent key defaults to the empty
list; a present null makes the comprehension iterate `None`, a
`TypeError`. -/
def entriesData : DictVal (List RuleEntryPatch) →
    Except ManagerError (List RuleEntryPatch)
  | DictVal.absent => Except.ok []
  | DictVal.null => Except.error ManagerError.pyTypeError
  | DictVal.val l => Except.ok l

/-- `Route(**{**route_data, 'rule_entries_list': [...]})` (src lines
38–45): the in-memory route built straight from the payload, with the
nested `RuleEntry` instances built from the extracted record list. -/
def routeFromData (d : RouteData) (ps : List RuleEntryPatch) : Route :=
  { id := d.id
    outbound := d.outbound.getD false
    host_endpoint := d.host_endpoint.getD ""
    payload := d.payload.getD ""
    rule_entries_list := ps.map ruleEntryFromData }

/-- The construct-and-validate phase of `create` (src lines 37–47): build
the in-memory `Route` with nested `RuleEntry` instances straight from the
payload, then run `check_route`.  No store interaction. -/
def buildRoute (B : Builders) (route_data : RouteData) :
    Except ManagerError Route :=
  match entriesData route_data.rule_entries_list with
  | Except.error e => Except.error e
  | Except.ok ps =>
    match check_route B (routeFromData route_data ps) with
    | Except.error e => Except.error e
    | Except.ok _ => Except.ok (routeFromData route_data ps)

/-- `create` (src lines 37–59).  `cf` injects a persistence failure at
the `session.add`/`session.commit` step; the `except` clause rolls back
and re-raises, so the store is returned unchanged on that path. -/
def create (B : Builders) (cf : Bool) (route_data : RouteData)
    (store : Bool) (s : Store) : Except ManagerError Route × Store :=
  match buildRoute B route_data with
  | Except.error e => (Except.error e, s)
  | Except.ok route =>
    if store then
      if cf then (Except.error (ManagerError.storageFailure "commit"), s)
      else
        let rn := assignRouteIds s.nextId route
        (Except.ok rn.1, { routes := s.routes ++ [rn.1], nextId := rn.2 })
    else (Except.ok route, s)

/-- The in-memory state `update` validates and commits (src lines 69–95):
the generic field merge, then — only if the payload names the
rule-entries key — the reconciler's new owned collection, where a
present-null list is read back as `[]` by `route_data['rule_entries_list']
or []` (src line 77). -/
def reconciledRoute (route : Route) (route_data : RouteData) : Route :=
  let route1 := updateRouteModel route route_data
  match route_data.rule_entries_list with
  | DictVal.absent => route1
  | DictVal.null =>
    { route1 with rule_entries_list := reconcile route1.rule_entries_list [] }
  | DictVal.val l =>
    { route1 with rule_entries_list := reconcile route1.rule_entries_list l }

/-- The committed route table after `update` replaces the row of
`route_id` by the flushed route. -/
def replaceRoute (rs : List Route) (route_id : String) (r' : Route) :
    List Route :=
  rs.map (fun r => if r.id = some route_id then r' else r)

/-- `update` (src lines 62–105): upsert via `create` when the id is
absent, otherwise merge, reconcile (entries unmatched by the target list
are deleted, the collection is reassigned), validate, and commit.  `cf`
injects a persistence failure at the `session.commit()` step, whose
`except` clause rolls back and re-raises. -/
def update (B : Builders) (cf : Bool) (route_id : String)
    (route_data : RouteData) (s : Store) : Except ManagerError Route × Store :=
  match get s route_id with
  | none => create B cf { route_data with id := some route_id } true s
  | some route =>
    let route2 := reconciledRoute route route_data
    match check_route B route2 with
    | Except.error e => (Except.error e, s)
    | Except.ok _ =>
      if cf then (Except.error (ManagerError.storageFailure "commit"), s)
      else
        let rn := assignRouteIds s.nextId route2
        (Except.ok rn.1,
         { routes := replaceRoute s.routes route_id rn.1, nextId := rn.2 })

/-- `delete` (src lines 108–114): `EntityNotFound` on an absent id,
otherwise remove the route (and, by ownership, its entries) and
commit. -/
def delete (route_id : String) (s : Store) : Except ManagerError Unit × Store :=
  match get s route_id with
  | none => (Except.error (ManagerError.entityNotFound route_id), s)
  | some _ =>
    (Except.ok (),
     { s with routes := s.routes.filter (fun r => !decide (r.id = some route_id)) })

/-- The construction phase of `replace` (src line 118): the list
comprehension `[create(route_data, False) for route_data in routes_data]`
fails at the first invalid payload and touches no store state. -/
def buildAll (B : Builders) : List RouteData → Except ManagerError (List Route)
  | [] => Except.ok []
  | d :: ds =>
    match buildRoute B d with
    | Except.error e => Except.error e
    | Except.ok r =>
      match buildAll B ds with
      | Except.error e => Except.error e
      | Except.ok rs => Except.ok (r :: rs)

/-- A persistence failure injected into the nested-transaction swap of
`replace`: at the bulk `session.query(Route).delete()` or at the
`session.add_all(routes)` call. -/
inductive SwapFault where
  | ok : SwapFault
  | failDelete : SwapFault
  | failAdd : SwapFault
deriving Repr, DecidableEq

/-- Flush every newly constructed route in order. -/
def assignAll (n : Nat) : List Route → List Route × Nat
  | [] => ([], n)
  | r :: rs =>
    let a := assignRouteIds n r
    let b := assignAll a.2 rs
    (a.1 :: b.1, b.2)

/-- `replace` (src lines 117–125): construct and validate every incoming
route without persisting, then swap the whole table inside
`session.begin_nested()` — on a failure of either step of the swap the
nested transaction rolls back entirely and the error propagates. -/
def replace (B : Builders) (fault : SwapFault) (routes_data : List RouteData)
    (s : Store) : Except ManagerError (List Route) × Store :=
  match buildAll B routes_data with
  | Except.error e => (Except.error e, s)
  | Except.ok routes =>
    match fault with
    | SwapFault.failDelete => (Except.error (ManagerError.storageFailure "delete"), s)
    | SwapFault.failAdd => (Except.error (ManagerError.storageFailure "add_all"), s)
    | SwapFault.ok =>
      let a := assignAll s.nextId routes
      (Except.ok a.1, { routes := a.1, nextId := a.2 })

/-! ## Concrete instances

A small executable regular-expression validity check standing in for
`re.compile` (spec §8 names an unbalanced `(` as the canonical invalid
pattern), and fixture data used to evaluate the theorems on concrete
inputs. -/

/-- Balanced-parenthesis scan: the concrete stand-in for whether
`re.compile` accepts a pattern. -/
def parenScan : List Char → Nat → Bool
  | [], 0 => true
  | [], _ + 1 => false
  | ch :: cs, d =>
    if ch = '(' then parenScan cs (d + 1)
    else if ch = ')' then
      match d with
      | 0 => false
      | d' + 1 => parenScan cs d'
    else parenScan cs d

/-- A concrete `re.compile` model: fails exactly on unbalanced
parentheses. -/
def regexErrSimple (pat : String) : Option String :=
  if parenScan pat.toList 0 then none else some "unbalanced parenthesis"

/-- Concrete builders: the paren-scan regex model, and expression /
pipeline builders that accept everything. -/
def demoBuilders : Builders :=
  { regexErr := regexErrSimple
    exprErr := fun _ => none
    pipeErr := fun _ => none }

/-- Fixture: a persisted rule entry with identity `a`. -/
def eA : RuleEntry :=
  { id := some "a", expression_snapshot := none, has_operations := false
    payload := "pa" }

/-- Fixture: a persisted route with identity `r1` owning `eA`. -/
def routeA : Route :=
  { id := some "r1", outbound := false, host_endpoint := "", payload := ""
    rule_entries_list := [eA] }

/-- Fixture: the empty store. -/
def s0 : Store := { routes := [], nextId := 0 }

/-- Fixture: a store holding `routeA`. -/
def s1 : Store := { routes := [routeA], nextId := 7 }

/-- Fixture: a payload supplying no key at all. -/
def dEmpty : RouteData :=
  { id := none, outbound := none, host_endpoint := none, payload := none
    rule_entries_list := DictVal.absent }

/-- Fixture: an outbound payload with an unbalanced host pattern. -/
def dBadHost : RouteData :=
  { dEmpty with outbound := some true, host_endpoint := some "(" }

/-- Fixture: an inbound payload (`is_outbound()` will return false) with
an unbalanced host pattern. -/
def dInboundBad : RouteData :=
  { dEmpty with outbound := some false, host_endpoint := some "(" }

/-- Fixture: a payload whose rule-entries key is present with a null
value. -/
def dNull : RouteData := { dEmpty with rule_entries_list := DictVal.null }

/-- Fixture: an incoming record carrying the unmatched identity `zzz`. -/
def pZZZ : RuleEntryPatch :=
  { id := some "zzz", expression_snapshot := none, has_operations := none
    payload := some "new" }

/-- Fixture: a payload replacing the collection by the `zzz` record. -/
def dZZZ : RouteData := { dEmpty with rule_entries_list := DictVal.val [pZZZ] }

/-- Fixture: an incoming record carrying no identity. -/
def pFresh : RuleEntryPatch :=
  { id := none, expression_snapshot := none, has_operations := none
    payload := some "fresh" }

/-- Fixture: a payload replacing the collection by the id-less record. -/
def dFresh : RouteData :=
  { dEmpty with rule_entries_list := DictVal.val [pFresh] }

/-- Fixture: an incoming record updating the existing entry `a`. -/
def pA : RuleEntryPatch :=
  { id := some "a", expression_snapshot := none, has_operations := none
    payload := some "upd" }

/-- `create(route_data, False)` is exactly the construct-and-validate
phase: the store is untouched. -/
theorem create_no_store (B : Builders) (cf : Bool) (d : RouteData) (s : Store) :
    create B cf d false s = (buildRoute B d, s) := by
  unfold create
  cases buildRoute B d <;> rfl

/-! ## Reconciler lemmas -/

/-- The merge excluding `id` keeps the identity. -/
theorem updateEntryFields_id (e : RuleEntry) (p : RuleEntryPatch) :
    (updateEntryFields e p).id = e.id := rfl

theorem reconcileAux_cons_none (c : List RuleEntry) (p : RuleEntryPatch)
    (ps : List RuleEntryPatch) (hid : p.id = none) :
    reconcileAux c (p :: ps) =
      ((reconcileAux c ps).1,
       TargetRef.fresh (ruleEntryFromData p) :: (reconcileAux c ps).2) := by
  simp [reconcileAux, hid]

theorem reconcileAux_cons_matched (c : List RuleEntry) (p : RuleEntryPatch)
    (ps : List RuleEntryPatch) (i : String) (j : Nat)
    (hid : p.id = some i) (hj : findIdxById c i = some j) :
    reconcileAux c (p :: ps) =
      ((reconcileAux (mutateAt c j p) ps).1,
       TargetRef.existing j :: (reconcileAux (mutateAt c j p) ps).2) := by
  simp [reconcileAux, hid, hj]

theorem reconcileAux_cons_unmatched (c : List RuleEntry) (p : RuleEntryPatch)
    (ps : List RuleEntryPatch) (i : String)
    (hid : p.id = some i) (hj : findIdxById c i = none) :
    reconcileAux c (p :: ps) =
      ((reconcileAux c ps).1,
       TargetRef.fresh (ruleEntryFromData p) :: (reconcileAux c ps).2) := by
  simp [reconcileAux, hid, hj]

theorem mutateAt_get_ne (c : List RuleEntry) (j m : Nat) (p : RuleEntryPatch)
    (hne : m ≠ j) : (mutateAt c j p).get? m = c.get? m := by
  induction c generalizing j m with
  | nil => rfl
  | cons e es ih =>
    cases j with
    | zero =>
      cases m with
      | zero => exact absurd rfl hne
      | succ m' => rfl
    | succ j' =>
      cases m with
      | zero => rfl
      | succ m' => exact ih j' m' (fun h => hne (by omega))

theorem mutateAt_get_eq (c : List RuleEntry) (j : Nat) (p : RuleEntryPatch)
    (e : RuleEntry) (he : c.get? j = some e) :
    (mutateAt c j p).get? j = some (updateEntryFields e p) := by
  induction c generalizing j with
  | nil => simp at he
  | cons x xs ih =>
    cases j with
    | zero =>
      simp at he
      subst he; rfl
    | succ j' => exact ih j' he

theorem mutateAt_idmap (c : List RuleEntry) (j : Nat) (p : RuleEntryPatch) :
    (mutateAt c j p).map (fun e => e.id) = c.map (fun e => e.id) := by
  induction c generalizing j with
  | nil => rfl
  | cons x xs ih =>
    cases j with
    | zero => simp [mutateAt, updateEntryFields_id]
    | succ j' => simp [mutateAt, ih j']

/-- `findIdxById` only looks at the identities. -/
theorem findIdxById_congr (c c' : List RuleEntry)
    (h : c.map (fun e => e.id) = c'.map (fun e => e.id)) (i : String) :
    findIdxById c i = findIdxById c' i := by
  induction c generalizing c' with
  | nil =>
    cases c' with
    | nil => rfl
    | cons y ys => simp at h
  | cons x xs ih =>
    cases c' with
    | nil => simp at h
    | cons y ys =>
      simp at h
      obtain ⟨h1, h2⟩ := h
      simp [findIdxById, h1, ih ys h2]

theorem findIdxById_get (c : List RuleEntry) (i : String) (j : Nat)
    (h : findIdxById c i = some j) :
    ∃ e, c.get? j = some e ∧ e.id = some i := by
  induction c generalizing j with
  | nil => simp [findIdxById] at h
  | cons x xs ih =>
    by_cases hx : x.id = some i
    · simp [findIdxById, hx] at h
      exact ⟨x, by simp [← h], hx⟩
    · simp [findIdxById, hx] at h
      obtain ⟨j', hj', rfl⟩ := h
      obtain ⟨e, he, hei⟩ := ih j' hj'
      exact ⟨e, by simpa using he, hei⟩

/-- The loop never changes any identity of the current collection. -/
theorem reconcileAux_idmap (ps : List RuleEntryPatch) (c : List RuleEntry) :
    ((reconcileAux c ps).1).map (fun e => e.id) = c.map (fun e => e.id) := by
  induction ps generalizing c with
  | nil => rfl
  | cons p ps ih =>
    cases hp : p.id with
    | none =>
      rw [reconcileAux_cons_none c p ps hp]
      exact ih c
    | some i =>
      cases hf : findIdxById c i with
      | none =>
        rw [reconcileAux_cons_unmatched c p ps i hp hf]
        exact ih c
      | some j =>
        rw [reconcileAux_cons_matched c p ps i j hp hf]
        exact (ih (mutateAt c j p)).trans (mutateAt_idmap c j p)

/-- An entry never targeted by the remaining records is left untouched by
the loop. -/
theorem reconcileAux_get_frozen (ps : List RuleEntryPatch)
    (c : List RuleEntry) (j : Nat) (e : RuleEntry) (i : String)
    (he : c.get? j = some e) (hid : e.id = some i)
    (hps : ∀ p ∈ ps, p.id ≠ some i) :
    (reconcileAux c ps).1.get? j = some e := by
  induction ps generalizing c with
  | nil => simpa using he
  | cons p ps ih =>
    have hp : p.id ≠ some i := hps p (by simp)
    have hps' : ∀ q ∈ ps, q.id ≠ some i := fun q hq => hps q (by simp [hq])
    cases hpid : p.id with
    | none =>
      rw [reconcileAux_cons_none c p ps hpid]
      exact ih c he hps'
    | some i' =>
      cases hf : findIdxById c i' with
      | none =>
        rw [reconcileAux_cons_unmatched c p ps i' hpid hf]
        exact ih c he hps'
      | some j' =>
        obtain ⟨e', he', hei'⟩ := findIdxById_get c i' j' hf
        have hjj : j ≠ j' := by
          intro hcontr
          subst hcontr
          rw [he] at he'
          cases he'
          rw [hid] at hei'
          exact hp (by rw [hpid, hei'])
        rw [reconcileAux_cons_matched c p ps i' j' hpid hf]
        exact ih (mutateAt c j' p)
          ((mutateAt_get_ne c j' j p hjj).trans he) hps'

/-- Position `k` of the new collection, when record `k` is the only one
carrying identity `i` and that identity matches a current entry: the
matched entry, merged with the record's fields. -/
theorem reconcile_get_matched (ps1 ps2 : List RuleEntryPatch)
    (p : RuleEntryPatch) (cur : List RuleEntry) (i : String) (j : Nat)
    (e : RuleEntry) (hid : p.id = some i) (hj : findIdxById cur i = some j)
    (he : cur.get? j = some e)
    (honce : ∀ q, q ∈ ps1 ∨ q ∈ ps2 → q.id ≠ some i) :
    (reconcile cur (ps1 ++ p :: ps2)).get? ps1.length =
      some (updateEntryFields e p) := by
  induction ps1 generalizing cur with
  | nil =>
    simp only [List.nil_append, List.length_nil]
    unfold reconcile
    rw [reconcileAux_cons_matched cur p ps2 i j hid hj]
    have heid : e.id = some i := by
      obtain ⟨e', he', hei'⟩ := findIdxById_get cur i j hj
      rw [he] at he'; cases he'; exact hei'
    have hfrozen :
        (reconcileAux (mutateAt cur j p) ps2).1.get? j =
          some (updateEntryFields e p) :=
      reconcileAux_get_frozen ps2 (mutateAt cur j p) j
        (updateEntryFields e p) i (mutateAt_get_eq cur j p e he)
        (by rw [updateEntryFields_id, heid])
        (fun q hq => honce q (Or.inr hq))
    simp only [List.map_cons, List.get?_cons_zero, materialize, hfrozen,
      Option.getD_some]
  | cons q ps1' ih =>
    have hq : q.id ≠ some i := honce q (Or.inl (by simp))
    have honce' : ∀ r, r ∈ ps1' ∨ r ∈ ps2 → r.id ≠ some i := by
      intro r hr
      refine honce r ?_
      cases hr with
      | inl h => exact Or.inl (by simp [h])
      | inr h => exact Or.inr h
    rw [List.cons_append]
    unfold reconcile
    cases hqid : q.id with
    | none =>
      rw [reconcileAux_cons_none cur q (ps1' ++ p :: ps2) hqid]
      simpa [reconcile] using ih cur hj he honce'
    | some i' =>
      cases hf : findIdxById cur i' with
      | none =>
        rw [reconcileAux_cons_unmatched cur q (ps1' ++ p :: ps2) i' hqid hf]
        simpa [reconcile] using ih cur hj he honce'
      | some j' =>
        obtain ⟨e', he', hei'⟩ := findIdxById_get cur i' j' hf
        have hjj : j ≠ j' := by
          intro hcontr
          subst hcontr
          rw [he] at he'; cases he'
          obtain ⟨e2, he2, hei2⟩ := findIdxById_get cur i j hj
          rw [he] at he2; cases he2
          exact hq (hqid.trans (hei'.symm.trans hei2))
        have hj2 : findIdxById (mutateAt cur j' q) i = some j := by
          rw [findIdxById_congr (mutateAt cur j' q) cur
            (mutateAt_idmap cur j' q) i]
          exact hj
        have he2 : (mutateAt cur j' q).get? j = some e :=
          (mutateAt_get_ne cur j' j q hjj).trans he
        rw [reconcileAux_cons_matched cur q (ps1' ++ p :: ps2) i' j' hqid hf]
        simpa [reconcile] using ih (mutateAt cur j' q) hj2 he2 honce'

/-- Position `k` of the new collection, when record `k` carries no id or
an id matching no current entry: a brand-new entry built from exactly the
record's fields. -/
theorem reconcile_get_fresh (ps1 ps2 : List RuleEntryPatch)
    (p : RuleEntryPatch) (cur : List RuleEntry)
    (hfresh : ∀ i, p.id = some i → findIdxById cur i = none) :
    (reconcile cur (ps1 ++ p :: ps2)).get? ps1.length =
      some (ruleEntryFromData p) := by
  induction ps1 generalizing cur with
  | nil =>
    simp only [List.nil_append, List.length_nil]
    unfold reconcile
    cases hpid : p.id with
    | none =>
      rw [reconcileAux_cons_none cur p ps2 hpid]
      simp [materialize]
    | some i =>
      rw [reconcileAux_cons_unmatched cur p ps2 i hpid (hfresh i hpid)]
      simp [materialize]
  | cons q ps1' ih =>
    rw [List.cons_append]
    unfold reconcile
    cases hqid : q.id with
    | none =>
      rw [reconcileAux_cons_none cur q (ps1' ++ p :: ps2) hqid]
      simpa [reconcile] using ih cur hfresh
    | some i' =>
      cases hf : findIdxById cur i' with
      | none =>
        rw [reconcileAux_cons_unmatched cur q (ps1' ++ p :: ps2) i' hqid hf]
        simpa [reconcile] using ih cur hfresh
      | some j' =>
        have hfresh' : ∀ i, p.id = some i →
            findIdxById (mutateAt cur j' q) i = none := by
          intro i hpi
          rw [findIdxById_congr (mutateAt cur j' q) cur
            (mutateAt_idmap cur j' q) i]
          exact hfresh i hpi
        rw [reconcileAux_cons_matched cur q (ps1' ++ p :: ps2) i' j' hqid hf]
        simpa [reconcile] using ih (mutateAt cur j' q) hfresh'

/-- The loop emits exactly one target per incoming record. -/
theorem reconcileAux_snd_length (ps : List RuleEntryPatch)
    (c : List RuleEntry) : (reconcileAux c ps).2.length = ps.length := by
  induction ps generalizing c with
  | nil => rfl
  | cons p ps ih =>
    cases hp : p.id with
    | none =>
      rw [reconcileAux_cons_none c p ps hp]
      simpa using ih c
    | some i =>
      cases hf : findIdxById c i with
      | none =>
        rw [reconcileAux_cons_unmatched c p ps i hp hf]
        simpa using ih c
      | some j =>
        rw [reconcileAux_cons_matched c p ps i j hp hf]
        simpa using ih (mutateAt c j p)

/-- The new collection has exactly one entry per incoming record, in the
incoming order. -/
theorem reconcile_length (cur : List RuleEntry) (ps : List RuleEntryPatch) :
    (reconcile cur ps).length = ps.length := by
  unfold reconcile
  simp [reconcileAux_snd_length]

/-- An empty incoming list yields an empty collection. -/
theorem reconcile_nil (cur : List RuleEntry) : reconcile cur [] = [] := rfl

/-! ## Error-classification and store lemmas -/

theorem exprCheck_error_invalid (B : Builders) (f : RuleEntry)
    (e : ManagerError) (h : exprCheck B f = Except.error e) :
    ∃ m, e = ManagerError.invalidRouteConfiguration m := by
  unfold exprCheck at h
  split at h
  · split at h
    · cases h
      exact ⟨_, rfl⟩
    · cases h
  · cases h

theorem opsCheck_error_invalid (B : Builders) (f : RuleEntry)
    (e : ManagerError) (h : opsCheck B f = Except.error e) :
    ∃ m, e = ManagerError.invalidRouteConfiguration m := by
  unfold opsCheck at h
  split at h
  · split at h
    · cases h
      exact ⟨_, rfl⟩
    · cases h
  · cases h

theorem check_filter_error_invalid (B : Builders) (f : RuleEntry)
    (e : ManagerError) (h : check_filter B f = Except.error e) :
    ∃ m, e = ManagerError.invalidRouteConfiguration m := by
  cases hc : exprCheck B f with
  | error e1 =>
    have h2 : check_filter B f = Except.error e1 := by
      unfold check_filter
      rw [hc]
    rw [h2] at h
    cases h
    exact exprCheck_error_invalid B f e hc
  | ok u =>
    have h2 : check_filter B f = opsCheck B f := by
      unfold check_filter
      rw [hc]
    rw [h2] at h
    exact opsCheck_error_invalid B f e h

theorem check_filters_error_invalid (B : Builders) (fs : List RuleEntry)
    (e : ManagerError) (h : check_filters B fs = Except.error e) :
    ∃ m, e = ManagerError.invalidRouteConfiguration m := by
  induction fs with
  | nil => cases h
  | cons f fs ih =>
    have h0 : check_filters B (f :: fs) =
        match check_filter B f with
        | Except.error e => Except.error e
        | Except.ok _ => check_filters B fs := rfl
    cases hc : check_filter B f with
    | error e1 =>
      have h2 : check_filters B (f :: fs) = Except.error e1 := by
        rw [h0, hc]
      rw [h2] at h
      cases h
      exact check_filter_error_invalid B f e hc
    | ok u =>
      have h2 : check_filters B (f :: fs) = check_filters B fs := by
        rw [h0, hc]
      rw [h2] at h
      exact ih h

theorem hostCheck_error_invalid (B : Builders) (r : Route)
    (e : ManagerError) (h : hostCheck B r = Except.error e) :
    ∃ m, e = ManagerError.invalidRouteConfiguration m := by
  unfold hostCheck at h
  split at h
  · split at h
    · cases h
      exact ⟨_, rfl⟩
    · cases h
  · cases h

/-- Every validation failure is an `InvalidRouteConfiguration`. -/
theorem check_route_error_invalid (B : Builders) (r : Route)
    (e : ManagerError) (h : check_route B r = Except.error e) :
    ∃ m, e = ManagerError.invalidRouteConfiguration m := by
  cases hc : hostCheck B r with
  | error e1 =>
    have h2 : check_route B r = Except.error e1 := by
      unfold check_route
      rw [hc]
    rw [h2] at h
    cases h
    exact hostCheck_error_invalid B r e hc
  | ok u =>
    have h2 : check_route B r = check_filters B r.rule_entries_list := by
      unfold check_route
      rw [hc]
    rw [h2] at h
    exact check_filters_error_invalid B r.rule_entries_list e h

theorem entriesData_error (v : DictVal (List RuleEntryPatch))
    (e : ManagerError) (h : entriesData v = Except.error e) :
    e = ManagerError.pyTypeError := by
  cases v with
  | absent => cases h
  | null => cases h; rfl
  | val l => cases h

/-- `buildRoute` unfolded by the outcome of the extraction and
validation phases. -/
theorem buildRoute_eq (B : Builders) (d : RouteData) :
    buildRoute B d =
      match entriesData d.rule_entries_list with
      | Except.error e => Except.error e
      | Except.ok ps =>
        match check_route B (routeFromData d ps) with
        | Except.error e => Except.error e
        | Except.ok _ => Except.ok (routeFromData d ps) := rfl

/-- `buildRoute` never signals `EntityNotFound`. -/
theorem buildRoute_error_kind (B : Builders) (d : RouteData)
    (e : ManagerError) (h : buildRoute B d = Except.error e) :
    e = ManagerError.pyTypeError ∨
      ∃ m, e = ManagerError.invalidRouteConfiguration m := by
  rw [buildRoute_eq] at h
  cases hd : entriesData d.rule_entries_list with
  | error e1 =>
    simp only [hd] at h
    cases h
    exact Or.inl (entriesData_error _ e hd)
  | ok ps =>
    simp only [hd] at h
    cases hc : check_route B (routeFromData d ps) with
    | error e1 =>
      simp only [hc] at h
      cases h
      exact Or.inr (check_route_error_invalid B _ e hc)
    | ok u =>
      simp only [hc] at h
      cases h

/-- The route constructed by `create` carries exactly the payload's id. -/
theorem buildRoute_ok_id (B : Builders) (d : RouteData) (r : Route)
    (h : buildRoute B d = Except.ok r) : r.id = d.id := by
  rw [buildRoute_eq] at h
  cases hd : entriesData d.rule_entries_list with
  | error e1 =>
    simp only [hd] at h
    cases h
  | ok ps =>
    simp only [hd] at h
    cases hc : check_route B (routeFromData d ps) with
    | error e1 =>
      simp only [hc] at h
      cases h
    | ok u =>
      simp only [hc] at h
      cases h
      rfl

/-- A validation failure of any input aborts the whole construction
phase of `replace`. -/
theorem buildAll_error_of_mem (B : Builders) (ds : List RouteData)
    (d : RouteData) (e : ManagerError) (hd : d ∈ ds)
    (he : buildRoute B d = Except.error e) :
    ∃ e', buildAll B ds = Except.error e' := by
  induction ds with
  | nil => cases hd
  | cons d0 ds ih =>
    unfold buildAll
    rcases List.mem_cons.mp hd with h0 | h0
    · subst h0
      rw [he]
      exact ⟨e, rfl⟩
    · cases hb : buildRoute B d0 with
      | error e0 => exact ⟨e0, rfl⟩
      | ok r0 =>
        obtain ⟨e', he'⟩ := ih h0
        rw [he']
        exact ⟨e', rfl⟩

/-- A found route carries the looked-up identity. -/
theorem get_some_id (s : Store) (rid : String) (r : Route)
    (h : get s rid = some r) : r.id = some rid := by
  unfold get at h
  have := List.find?_some h
  exact of_decide_eq_true this

theorem find?_append_none {α : Type} (p : α → Bool) (l1 l2 : List α)
    (h : l1.find? p = none) : (l1 ++ l2).find? p = l2.find? p := by
  induction l1 with
  | nil => rfl
  | cons x xs ih =>
    cases hx : p x with
    | true =>
      rw [List.find?_cons_of_pos _ hx] at h
      cases h
    | false =>
      rw [List.find?_cons_of_neg _ (by simp [hx])] at h
      rw [List.cons_append, List.find?_cons_of_neg _ (by simp [hx])]
      exact ih h

/-- Flushing changes nothing on entries that already have identities. -/
theorem assignEntryIds_all_some (n : Nat) (es : List RuleEntry)
    (h : ∀ e ∈ es, e.id ≠ none) : assignEntryIds n es = (es, n) := by
  induction es with
  | nil => rfl
  | cons e es ih =>
    have he : e.id ≠ none := h e (by simp)
    cases hid : e.id with
    | none => exact absurd hid he
    | some v =>
      unfold assignEntryIds
      rw [hid]
      simp [ih (fun x hx => h x (by simp [hx]))]

theorem assignEntryIds_length (n : Nat) (es : List RuleEntry) :
    (assignEntryIds n es).1.length = es.length := by
  induction es generalizing n with
  | nil => rfl
  | cons e es ih =>
    unfold assignEntryIds
    cases e.id with
    | none => simp [ih]
    | some v => simp [ih]

/-- Flushing a route that already has an identity only flushes its
entries. -/
theorem assignRouteIds_some (n : Nat) (r : Route) (a : String)
    (h : r.id = some a) :
    assignRouteIds n r =
      ({ r with rule_entries_list := (assignEntryIds n r.rule_entries_list).1 },
       (assignEntryIds n r.rule_entries_list).2) := by
  unfold assignRouteIds
  rw [h]

theorem assignRouteIds_fst_id (n : Nat) (r : Route) (a : String)
    (h : r.id = some a) : (assignRouteIds n r).1.id = some a := by
  rw [assignRouteIds_some n r a h]
  exact h

/-- A merge without the rule-entries key leaves the owned collection
alone. -/
theorem updateRouteModel_entries (r : Route) (d : RouteData) :
    (updateRouteModel r d).rule_entries_list = r.rule_entries_list := rfl

/-- The reconciled in-memory state keeps an assigned route identity. -/
theorem reconciledRoute_id_some (route : Route) (d : RouteData) (a : String)
    (h : route.id = some a) : ∃ b, (reconciledRoute route d).id = some b := by
  unfold reconciledRoute updateRouteModel
  cases d.rule_entries_list <;> cases d.id <;> simp [h]

/-- The only failures `create` can signal: the payload `TypeError`, a
validation failure, or a persistence failure at commit.  In particular
never `EntityNotFound`. -/
theorem create_error_kind (B : Builders) (cf : Bool) (d : RouteData)
    (st : Bool) (s : Store) (e : ManagerError)
    (h : (create B cf d st s).1 = Except.error e) :
    e = ManagerError.pyTypeError ∨
      (∃ m, e = ManagerError.invalidRouteConfiguration m) ∨
      e = ManagerError.storageFailure "commit" := by
  unfold create at h
  cases hb : buildRoute B d with
  | error e1 =>
    simp only [hb] at h
    cases h
    rcases buildRoute_error_kind B d e hb with h1 | h1
    · exact Or.inl h1
    · exact Or.inr (Or.inl h1)
  | ok route =>
    simp only [hb] at h
    cases st with
    | false => simp at h
    | true =>
      cases cf with
      | false => simp at h
      | true =>
        simp at h
        exact Or.inr (Or.inr h.symm)

/-- `create` on success with persistence appends the flushed route. -/
theorem create_ok_store (B : Builders) (cf : Bool) (d : RouteData)
    (s : Store) (r' : Route)
    (h : (create B cf d true s).1 = Except.ok r') :
    ∃ route, buildRoute B d = Except.ok route ∧ cf = false
      ∧ r' = (assignRouteIds s.nextId route).1
      ∧ (create B cf d true s).2 =
          { routes := s.routes ++ [r'], nextId := (assignRouteIds s.nextId route).2 } := by
  unfold create at h ⊢
  cases hb : buildRoute B d with
  | error e1 =>
    simp only [hb] at h
    cases h
  | ok route =>
    simp only [hb] at h ⊢
    cases cf with
    | true => simp at h
    | false =>
      simp at h
      exact ⟨route, rfl, rfl, h.symm, by simp [h]⟩

/-- `update` on an existing route, unfolded. -/
theorem update_of_get_some (B : Builders) (cf : Bool) (rid : String)
    (d : RouteData) (s : Store) (route : Route)
    (hget : get s rid = some route) :
    update B cf rid d s =
      (match check_route B (reconciledRoute route d) with
       | Except.error e => (Except.error e, s)
       | Except.ok _ =>
         if cf then (Except.error (ManagerError.storageFailure "commit"), s)
         else
           (Except.ok (assignRouteIds s.nextId (reconciledRoute route d)).1,
            { routes := replaceRoute s.routes rid
                (assignRouteIds s.nextId (reconciledRoute route d)).1,
              nextId := (assignRouteIds s.nextId (reconciledRoute route d)).2 })) := by
  unfold update
  rw [hget]

/-- The reconciled route when the payload omits the rule-entries key. -/
theorem reconciledRoute_absent (route : Route) (d : RouteData)
    (habs : d.rule_entries_list = DictVal.absent) :
    reconciledRoute route d = updateRouteModel route d := by
  unfold reconciledRoute
  rw [habs]

/-- The reconciled route when the payload supplies a list. -/
theorem reconciledRoute_val (route : Route) (d : RouteData)
    (l : List RuleEntryPatch) (hl : d.rule_entries_list = DictVal.val l) :
    reconciledRoute route d =
      { updateRouteModel route d with
        rule_entries_list := reconcile route.rule_entries_list l } := by
  unfold reconciledRoute
  rw [hl]
  rfl

theorem assignRouteIds_fst_entries (n : Nat) (r : Route) (a : String)
    (h : r.id = some a) :
    (assignRouteIds n r).1.rule_entries_list =
      (assignEntryIds n r.rule_entries_list).1 := by
  rw [assignRouteIds_some n r a h]

/-- A successful `update` of an existing route, decomposed: validation of
the reconciled state passed, no commit fault, and the returned route is
the flushed reconciled state, written over the old row. -/
theorem update_ok_shape (B : Builders) (cf : Bool) (rid : String)
    (d : RouteData) (s : Store) (route r' : Route)
    (hget : get s rid = some route)
    (hok : (update B cf rid d s).1 = Except.ok r') :
    check_route B (reconciledRoute route d) = Except.ok () ∧ cf = false
    ∧ r' = (assignRouteIds s.nextId (reconciledRoute route d)).1
    ∧ (update B cf rid d s).2 =
        { routes := replaceRoute s.routes rid r',
          nextId := (assignRouteIds s.nextId (reconciledRoute route d)).2 } := by
  rw [update_of_get_some B cf rid d s route hget] at hok ⊢
  cases hc : check_route B (reconciledRoute route d) with
  | error e1 =>
    simp only [hc] at hok
    cases hok
  | ok u =>
    cases u
    simp only [hc] at hok ⊢
    cases cf with
    | true =>
      simp at hok
    | false =>
      simp at hok
      exact ⟨by trivial, rfl, hok.symm, by simp [hok]⟩

/-! ## Claim theorems -/

/-- Claim C1: `replace` is atomic.  If any input payload fails validation
(every such failure is raised during the construction phase, before any
store interaction), the whole call errors and no route of the prior set
is deleted and none is inserted; and whatever step of the swap itself
fails, an error always leaves the persisted set exactly as it was — no
partial deletion or insertion is visible. -/
theorem replace_atomicity (B : Builders) (fault : SwapFault)
    (ds : List RouteData) (s : Store) :
    ((∃ d, d ∈ ds ∧ ∃ e, buildRoute B d = Except.error e) →
      (∃ e', (replace B fault ds s).1 = Except.error e')
        ∧ (replace B fault ds s).2 = s)
    ∧ (∀ e, (replace B fault ds s).1 = Except.error e →
        (replace B fault ds s).2 = s) := by
  constructor
  · rintro ⟨d, hd, e, he⟩
    obtain ⟨e', he'⟩ := buildAll_error_of_mem B ds d e hd he
    refine ⟨⟨e', ?_⟩, ?_⟩ <;> simp [replace, he']
  · intro e h
    unfold replace at h ⊢
    cases hb : buildAll B ds with
    | error e1 => simp only [hb]
    | ok routes =>
      simp only [hb] at h ⊢
      cases fault with
      | ok => simp at h
      | failDelete => rfl
      | failAdd => rfl

/-- Witness for C1 at a concrete input: one payload with an invalid host
pattern; `replace` errors and the store keeps `routeA`. -/
theorem replace_atomicity_witness :
    (∃ e', (replace demoBuilders SwapFault.ok [dBadHost] s1).1 =
      Except.error e')
    ∧ (replace demoBuilders SwapFault.ok [dBadHost] s1).2 = s1 :=
  (replace_atomicity demoBuilders SwapFault.ok [dBadHost] s1).1
    ⟨dBadHost, by simp, ⟨_, rfl⟩⟩

/-- Claim C7: updating an id with no existing route does not raise
`EntityNotFound` — it delegates to `create` with the id injected into the
payload, and a successful upsert leaves the new route retrievable by that
same id. -/
theorem update_upsert (B : Builders) (cf : Bool) (rid : String)
    (d : RouteData) (s : Store) (hnone : get s rid = none) :
    update B cf rid d s = create B cf { d with id := some rid } true s
    ∧ (∀ x, (update B cf rid d s).1 ≠
        Except.error (ManagerError.entityNotFound x))
    ∧ (∀ r', (update B cf rid d s).1 = Except.ok r' →
        get (update B cf rid d s).2 rid = some r') := by
  have hdel : update B cf rid d s = create B cf { d with id := some rid } true s := by
    unfold update
    rw [hnone]
  refine ⟨hdel, ?_, ?_⟩
  · intro x heq
    rw [hdel] at heq
    rcases create_error_kind B cf _ true s _ heq with h1 | ⟨m, h1⟩ | h1 <;>
      cases h1
  · intro r' hok
    rw [hdel] at hok ⊢
    obtain ⟨route, hroute, hcf, hr', hs'⟩ :=
      create_ok_store B cf { d with id := some rid } s r' hok
    rw [hs']
    unfold get
    rw [find?_append_none _ s.routes [r'] (by unfold get at hnone; exact hnone)]
    have hid : r'.id = some rid := by
      rw [hr']
      exact assignRouteIds_fst_id s.nextId route rid
        ((buildRoute_ok_id B _ route hroute).trans rfl)
    rw [List.find?_cons_of_pos _ (by simp [hid])]

/-- Witness for C7 at a concrete input: upserting id `n1` into the empty
store delegates to `create` and makes the route retrievable. -/
theorem update_upsert_witness :
    update demoBuilders false "n1" dEmpty s0 =
      create demoBuilders false { dEmpty with id := some "n1" } true s0 :=
  (update_upsert demoBuilders false "n1" dEmpty s0 rfl).1

/-- Claim C8: `delete` on an absent id raises `EntityNotFound` and leaves
the store unchanged; on an existing id it removes that route (and, the
entries being owned by the route, them too) and commits.  The error is
`delete`'s alone: `get` returns an absent result rather than raising, and
`create`/`update`-as-upsert never signal `EntityNotFound`. -/
theorem delete_entity_not_found (s : Store) (rid : String) :
    (get s rid = none →
      delete rid s = (Except.error (ManagerError.entityNotFound rid), s))
    ∧ (∀ route, get s rid = some route →
        delete rid s =
          (Except.ok (),
           { s with routes :=
              s.routes.filter (fun r => !decide (r.id = some rid)) }))
    ∧ (∀ B cf d st x,
        (create B cf d st s).1 ≠ Except.error (ManagerError.entityNotFound x))
    ∧ (∀ B cf d x, get s rid = none →
        (update B cf rid d s).1 ≠ Except.error (ManagerError.entityNotFound x)) := by
  refine ⟨?_, ?_, ?_, ?_⟩
  · intro hnone
    unfold delete
    rw [hnone]
  · intro route hsome
    unfold delete
    rw [hsome]
  · intro B cf d st x heq
    rcases create_error_kind B cf d st s _ heq with h1 | ⟨m, h1⟩ | h1 <;>
      cases h1
  · intro B cf d x hnone heq
    have hdel : update B cf rid d s = create B cf { d with id := some rid } true s := by
      unfold update
      rw [hnone]
    rw [hdel] at heq
    rcases create_error_kind B cf _ true s _ heq with h1 | ⟨m, h1⟩ | h1 <;>
      cases h1

/-- Witness for C8 at a concrete input: deleting the absent id `nope`
errors with `EntityNotFound` and leaves the store as it was. -/
theorem delete_entity_not_found_witness :
    delete "nope" s1 =
      (Except.error (ManagerError.entityNotFound "nope"), s1) :=
  (delete_entity_not_found s1 "nope").1 rfl

/-- Claim C2: `update` of an existing route validates the fully
reconciled in-memory state before the commit.  Any failure — a validation
failure (whose error is re-raised verbatim) or an injected persistence
failure at commit — leaves the previously persisted state of the route
and its rule entries exactly as it was: the store is unchanged. -/
theorem update_failure_atomicity (B : Builders) (cf : Bool) (rid : String)
    (d : RouteData) (s : Store) (route : Route)
    (hget : get s rid = some route) :
    (∀ e, (update B cf rid d s).1 = Except.error e →
      (update B cf rid d s).2 = s)
    ∧ (∀ e, check_route B (reconciledRoute route d) = Except.error e →
        update B cf rid d s = (Except.error e, s)) := by
  rw [update_of_get_some B cf rid d s route hget]
  constructor
  · intro e h
    cases hc : check_route B (reconciledRoute route d) with
    | error e1 => simp only [hc]
    | ok u =>
      simp only [hc] at h ⊢
      cases cf with
      | true => simp
      | false => simp at h
  · intro e hc
    simp only [hc]

/-- Witness for C2 at a concrete input: a commit fault on an update of
`r1` leaves the store holding exactly the prior `routeA`. -/
theorem update_failure_atomicity_witness :
    (update demoBuilders true "r1" dEmpty s1).2 = s1 :=
  (update_failure_atomicity demoBuilders true "r1" dEmpty s1 routeA rfl).1
    (ManagerError.storageFailure "commit") rfl

/-- Claim C3: an update whose payload does not contain the rule-entries
key leaves the route's persisted rule-entry collection — membership,
contents and order — exactly unchanged: the returned route carries the
old collection and the store merely replaces the row by it.
Reconciliation runs only when the key is present. -/
theorem update_absent_key_frame (B : Builders) (cf : Bool) (rid : String)
    (d : RouteData) (s : Store) (route r' : Route)
    (habs : d.rule_entries_list = DictVal.absent)
    (hget : get s rid = some route)
    (hwf : ∀ e ∈ route.rule_entries_list, e.id ≠ none)
    (hok : (update B cf rid d s).1 = Except.ok r') :
    r'.rule_entries_list = route.rule_entries_list
    ∧ (update B cf rid d s).2.routes = replaceRoute s.routes rid r' := by
  have hrid : route.id = some rid := get_some_id s rid route hget
  obtain ⟨b, hb⟩ := reconciledRoute_id_some route d rid hrid
  have hent : (reconciledRoute route d).rule_entries_list =
      route.rule_entries_list := by
    rw [reconciledRoute_absent route d habs]
    rfl
  obtain ⟨hcheck, hcf, hr', hs'⟩ :=
    update_ok_shape B cf rid d s route r' hget hok
  have hentries : r'.rule_entries_list = route.rule_entries_list := by
    rw [hr', assignRouteIds_fst_entries s.nextId _ b hb, hent,
      assignEntryIds_all_some s.nextId _ hwf]
  exact ⟨hentries, by rw [hs']⟩

/-- Witness for C3 at a concrete input: updating `r1` with a payload
omitting the key keeps the collection `[eA]`. -/
theorem update_absent_key_frame_witness :
    routeA.rule_entries_list = routeA.rule_entries_list
    ∧ (update demoBuilders false "r1" dEmpty s1).2.routes =
        replaceRoute s1.routes "r1" routeA :=
  update_absent_key_frame demoBuilders false "r1" dEmpty s1 routeA routeA
    rfl rfl (by decide) rfl

/-- Claim C10: an update of an existing route whose payload carries the
rule-entries key with a null value behaves exactly as if the empty list
had been supplied — reconciliation runs (`route_data['rule_entries_list']
or []`) and every prior rule entry of the route is removed. -/
theorem update_null_entries (B : Builders) (cf : Bool) (rid : String)
    (d : RouteData) (s : Store) (route : Route)
    (hnull : d.rule_entries_list = DictVal.null)
    (hget : get s rid = some route) :
    update B cf rid d s =
      update B cf rid { d with rule_entries_list := DictVal.val [] } s
    ∧ (∀ r', (update B cf rid d s).1 = Except.ok r' →
        r'.rule_entries_list = []) := by
  have hrec : reconciledRoute route d =
      reconciledRoute route { d with rule_entries_list := DictVal.val [] } := by
    unfold reconciledRoute
    rw [hnull]
    rfl
  constructor
  · rw [update_of_get_some B cf rid d s route hget,
      update_of_get_some B cf rid
        { d with rule_entries_list := DictVal.val [] } s route hget, hrec]
  · intro r' hok
    have hrid : route.id = some rid := get_some_id s rid route hget
    obtain ⟨b, hb⟩ := reconciledRoute_id_some route d rid hrid
    obtain ⟨hcheck, hcf, hr', hs'⟩ :=
      update_ok_shape B cf rid d s route r' hget hok
    have hent : (reconciledRoute route d).rule_entries_list = [] := by
      unfold reconciledRoute
      rw [hnull]
      exact reconcile_nil (updateRouteModel route d).rule_entries_list
    rw [hr', assignRouteIds_fst_entries s.nextId _ b hb, hent]
    rfl

/-- Witness for C10 at a concrete input: a null rule-entries value on
`r1` equals the empty-list update. -/
theorem update_null_entries_witness :
    update demoBuilders false "r1" dNull s1 =
      update demoBuilders false "r1"
        { dNull with rule_entries_list := DictVal.val [] } s1 :=
  (update_null_entries demoBuilders false "r1" dNull s1 routeA rfl rfl).1

/-- Claim C4: an incoming record whose id matches an existing entry of
the current collection (and is carried by no other incoming record)
mutates that entry in place at the record's position: the merge never
overwrites the id, and every other supplied field is adopted. -/
theorem reconcile_matched_merge (cur : List RuleEntry)
    (ps1 ps2 : List RuleEntryPatch) (p : RuleEntryPatch) (i : String)
    (j : Nat) (e : RuleEntry) (hid : p.id = some i)
    (hj : findIdxById cur i = some j) (he : cur.get? j = some e)
    (honce : ∀ q, q ∈ ps1 ∨ q ∈ ps2 → q.id ≠ some i) :
    (reconcile cur (ps1 ++ p :: ps2)).get? ps1.length =
      some (updateEntryFields e p)
    ∧ (updateEntryFields e p).id = e.id
    ∧ (∀ v, p.expression_snapshot = some v →
        (updateEntryFields e p).expression_snapshot = v)
    ∧ (∀ ob, p.has_operations = some ob →
        (updateEntryFields e p).has_operations = ob)
    ∧ (∀ t, p.payload = some t → (updateEntryFields e p).payload = t) := by
  refine ⟨reconcile_get_matched ps1 ps2 p cur i j e hid hj he honce,
    rfl, ?_, ?_, ?_⟩
  · intro v hv
    simp [updateEntryFields, hv]
  · intro ob hob
    simp [updateEntryFields, hob]
  · intro t ht
    simp [updateEntryFields, ht]

/-- Witness for C4 at a concrete input: the record `pA` merges onto the
matching entry `eA`. -/
theorem reconcile_matched_merge_witness :
    (reconcile [eA] [pA]).get? 0 = some (updateEntryFields eA pA) :=
  (reconcile_matched_merge [eA] [] [] pA "a" 0 eA rfl (by decide) rfl
    (by simp)).1

/-- Claim C5 counterexample: updating `r1` with a single record carrying
the unmatched id `zzz` persists a brand-new entry whose id IS the
supplied `zzz` — not a store-minted identifier (the store would have
minted `freshId 7 = "gen-7"` here).  The claim's "assigned a fresh
identity by the underlying store (rather than keeping an unmatched id
supplied in the record)" is therefore false on the code: `RuleEntry(
**filter_data)` passes the supplied id through. -/
theorem unmatched_id_kept_counterexample :
    (update demoBuilders false "r1" dZZZ s1).1 =
      Except.ok
        { id := some "r1", outbound := false, host_endpoint := ""
          payload := ""
          rule_entries_list :=
            [{ id := some "zzz", expression_snapshot := none
               has_operations := false, payload := "new" }] }
    ∧ freshId s1.nextId ≠ "zzz" := by
  exact ⟨rfl, by decide⟩

/-- Claim C5 (amended): a record whose id is absent or matches no entry
of the current collection yields a brand-new entry built from exactly the
incoming fields.  Its id field is the record's own: `none` when absent —
in that case the store mints a fresh identifier (`freshId`) at commit —
while a supplied-but-unmatched id is kept verbatim. -/
theorem reconcile_unmatched_fresh (cur : List RuleEntry)
    (ps1 ps2 : List RuleEntryPatch) (p : RuleEntryPatch)
    (hfresh : ∀ i, p.id = some i → findIdxById cur i = none) :
    (reconcile cur (ps1 ++ p :: ps2)).get? ps1.length =
      some (ruleEntryFromData p)
    ∧ (ruleEntryFromData p).id = p.id
    ∧ (p.id = none →
        ∀ n, (assignEntryIds n [ruleEntryFromData p]).1.map (fun x => x.id)
          = [some (freshId n)]) := by
  refine ⟨reconcile_get_fresh ps1 ps2 p cur hfresh, rfl, ?_⟩
  intro hp n
  simp [assignEntryIds, ruleEntryFromData, hp]

/-- Witness for the amended C5 at a concrete input: the unmatched record
`pZZZ` against the collection `[eA]`. -/
theorem reconcile_unmatched_fresh_witness :
    (reconcile [eA] [pZZZ]).get? 0 = some (ruleEntryFromData pZZZ) :=
  (reconcile_unmatched_fresh [eA] [] [] pZZZ
    (by
      intro i hi
      simp [pZZZ] at hi
      subst hi
      decide)).1

/-- Claim C6: an update supplying a rule-entries list replaces the owned
collection by exactly the incoming records post-merge/post-creation in
the incoming order (then flushed, minting ids for the new entries); the
collection has one entry per incoming record, an empty incoming list
removes every prior entry, any prior entry whose id is not among the
post-merge target ids is gone, and the store rewrites just that row. -/
theorem update_entries_replacement (B : Builders) (cf : Bool) (rid : String)
    (d : RouteData) (s : Store) (route r' : Route) (l : List RuleEntryPatch)
    (hl : d.rule_entries_list = DictVal.val l)
    (hget : get s rid = some route)
    (hok : (update B cf rid d s).1 = Except.ok r') :
    r'.rule_entries_list =
      (assignEntryIds s.nextId (reconcile route.rule_entries_list l)).1
    ∧ r'.rule_entries_list.length = l.length
    ∧ (l = [] → r'.rule_entries_list = [])
    ∧ (∀ e ∈ route.rule_entries_list,
        (¬ ∃ t ∈ reconcile route.rule_entries_list l, t.id = e.id) →
          e ∉ reconcile route.rule_entries_list l)
    ∧ (update B cf rid d s).2.routes = replaceRoute s.routes rid r' := by
  have hrid : route.id = some rid := get_some_id s rid route hget
  obtain ⟨b, hb⟩ := reconciledRoute_id_some route d rid hrid
  obtain ⟨hcheck, hcf, hr', hs'⟩ :=
    update_ok_shape B cf rid d s route r' hget hok
  have hent : (reconciledRoute route d).rule_entries_list =
      reconcile route.rule_entries_list l := by
    rw [reconciledRoute_val route d l hl]
  have h1 : r'.rule_entries_list =
      (assignEntryIds s.nextId (reconcile route.rule_entries_list l)).1 := by
    rw [hr', assignRouteIds_fst_entries s.nextId _ b hb, hent]
  refine ⟨h1, ?_, ?_, ?_, by rw [hs']⟩
  · rw [h1, assignEntryIds_length, reconcile_length]
  · intro hl0
    subst hl0
    rw [h1]
    rfl
  · intro e he hno hmem
    exact hno ⟨e, hmem, rfl⟩

/-- Witness for C6 at a concrete input: replacing the collection of `r1`
by the id-less record `pFresh` yields exactly the flushed reconciled
list, with the store-minted identity `gen-7`. -/
theorem update_entries_replacement_witness :
    ({ id := some "r1", outbound := false, host_endpoint := ""
       payload := ""
       rule_entries_list :=
         [{ id := some "gen-7", expression_snapshot := none
            has_operations := false, payload := "fresh" }] } :
      Route).rule_entries_list =
      (assignEntryIds s1.nextId
        (reconcile routeA.rule_entries_list [pFresh])).1 :=
  (update_entries_replacement demoBuilders false "r1" dFresh s1 routeA
    { id := some "r1", outbound := false, host_endpoint := ""
      payload := ""
      rule_entries_list :=
        [{ id := some "gen-7", expression_snapshot := none
           has_operations := false, payload := "fresh" }] }
    [pFresh] rfl rfl rfl).1

/-- Claim C9 (code bug): the spec's guard "if `is_outbound` is true,
compile `host_endpoint`" is not what the code does.  `is_outbound` is a
method (`get_all_by_type`, src line 30, calls it), so `check_route`'s
bare `if route.is_outbound:` (src line 144) tests the truthiness of a
bound-method object — always true.  Hence a route whose `is_outbound()`
is false still has its host pattern compiled: with the unparsable pattern
`(` it is rejected by `create` and by `update` with
`InvalidRouteConfiguration` "Invalid host pattern …" (and no write
occurs), where the claim says the pattern must not be compiled at all.
The outbound half of the claim does hold, as the last conjunct shows. -/
theorem inbound_host_pattern_bug :
    Route.is_outbound (routeFromData dInboundBad []) = false
    ∧ create demoBuilders false dInboundBad true s0 =
        (Except.error (ManagerError.invalidRouteConfiguration
          "Invalid host pattern (: unbalanced parenthesis"), s0)
    ∧ update demoBuilders false "x1" dInboundBad s0 =
        (Except.error (ManagerError.invalidRouteConfiguration
          "Invalid host pattern (: unbalanced parenthesis"), s0)
    ∧ create demoBuilders false dBadHost true s0 =
        (Except.error (ManagerError.invalidRouteConfiguration
          "Invalid host pattern (: unbalanced parenthesis"), s0) := by
  exact ⟨rfl, rfl, rfl, rfl⟩

end Satellite
